import Mathlib

/-!
Verification of the expense-analysis pipeline (ExpenseAnalyzer) and its
query dispatcher.

The development shallowly embeds the pipeline implemented in
`expense_analyzer.py` (Loader / Categorizer / Anomaly Detector /
Summarizer on a mutable analyzer object) and the query handler of
`app.py`.  Currency amounts are modelled as exact rationals; the
outlier model (sklearn IsolationForest) is modelled as an abstract
labelling function that returns one label per sample; pandas string
and CSV primitives are modelled by executable Lean functions.
-/

namespace ExpenseAI

/-- Decidable equality of `Except` results (used to state concrete
evaluations of the fallible operations). -/
instance instDecEqExcept {ε α : Type} [DecidableEq ε] [DecidableEq α] :
    DecidableEq (Except ε α) := fun x y =>
  match x, y with
  | .ok a, .ok b => decidable_of_iff (a = b) (by simp)
  | .error e, .error f => decidable_of_iff (e = f) (by simp)
  | .ok _, .error _ => isFalse (by simp)
  | .error _, .ok _ => isFalse (by simp)

/-! ### String helpers

Executable models of the Python / pandas string primitives used by the
source, defined over `String.data` so that they compute by kernel
reduction. -/

/-- Model of Python `str.lower` (ASCII text). -/
def lowerStr (s : String) : String := ⟨s.data.map Char.toLower⟩

/-- Substring containment on character lists: `isSubList n h` holds when
`n` occurs contiguously inside `h`. -/
def isSubList (needle : List Char) : List Char → Bool
  | [] => needle.isEmpty
  | c :: t => needle.isPrefixOf (c :: t) || isSubList needle t

/-- The test `containsSub hay needle` models the Python expression
`needle in hay` on strings. -/
def containsSub (hay needle : String) : Bool := isSubList needle.data hay.data

/-- Model of Python `str.capitalize`: first character upper-cased, the
rest lower-cased. -/
def capitalizeStr (s : String) : String :=
  match s.data with
  | [] => ""
  | c :: t => ⟨c.toUpper :: t.map Char.toLower⟩

/-- Parse a nonempty all-digit character list as a natural number. -/
def digitsToNat? (cs : List Char) : Option ℕ :=
  if cs.isEmpty || !(cs.all Char.isDigit) then none
  else some (cs.foldl (fun n c => 10 * n + (c.toNat - 48)) 0)

/-- Split a character list on a separator character (model of
`str.split(sep)`). -/
def splitOnChar (sep : Char) : List Char → List (List Char)
  | [] => [[]]
  | c :: t =>
    let r := splitOnChar sep t
    if c = sep then [] :: r
    else
      match r with
      | [] => [[c]]
      | g :: gs => (c :: g) :: gs

/-! ### Calendar dates -/

/-- A calendar date. -/
structure Date where
  year : ℕ
  month : ℕ
  day : ℕ
deriving DecidableEq

def isLeapYear (y : ℕ) : Bool := (y % 4 == 0 && y % 100 != 0) || (y % 400 == 0)

def daysInMonth (y m : ℕ) : ℕ :=
  if m = 2 then (if isLeapYear y then 29 else 28)
  else if m = 4 ∨ m = 6 ∨ m = 9 ∨ m = 11 then 30
  else 31

/-- Model of `pandas.to_datetime` on a single cell, covering the ISO
`YYYY-MM-DD` form (the library accepts further formats; the claims only
need the existence of parseable and unparseable date cells). -/
def parse_date (s : String) : Option Date :=
  match (splitOnChar '-' s.data).map digitsToNat? with
  | [some y, some m, some d] =>
      if 1 ≤ m ∧ m ≤ 12 ∧ 1 ≤ d ∧ d ≤ daysInMonth y m then some ⟨y, m, d⟩ else none
  | _ => none

/-- Days since 1970-01-01 in the proleptic Gregorian calendar (the
standard civil-from-days computation; for the dates appearing here all
intermediate quantities are nonnegative, so the division convention is
immaterial). -/
def daysFromCivil (d : Date) : ℤ :=
  let y : ℤ := if d.month ≤ 2 then (d.year : ℤ) - 1 else (d.year : ℤ)
  let era : ℤ := (if 0 ≤ y then y else y - 399) / 400
  let yoe : ℤ := y - era * 400
  let mp : ℤ := ((d.month : ℤ) + 9) % 12
  let doy : ℤ := (153 * mp + 2) / 5 + (d.day : ℤ) - 1
  let doe : ℤ := yoe * 365 + yoe / 4 - yoe / 100 + doy
  era * 146097 + doe - 719468

/-- Model of the pandas accessor `Series.dt.dayofweek`
(Monday = 0, ..., Sunday = 6). -/
def dayOfWeek (d : Date) : ℤ := (daysFromCivil d + 3) % 7

/-! ### Loader (`ExpenseAnalyzer.load_data`)

`pandas.read_csv` applies type inference per cell: a cell that looks
like a decimal number becomes numeric, anything else stays text.
`load_data` then checks for the four required columns and converts the
date column with `pandas.to_datetime`, which raises on the first
malformed cell.  There is no validation of the amount column. -/

/-- Model of the `read_csv` numeric inference applied to an amount
cell: an optional sign, decimal digits and an optional fractional part
parse to a number (the common decimal forms; exotic spellings such as
exponents are not needed by the claims). -/
def parse_amount (s : String) : Option ℚ :=
  let p : Bool × List Char :=
    match s.data with
    | '-' :: t => (true, t)
    | t => (false, t)
  match splitOnChar '.' p.2 with
  | [ip] => (digitsToNat? ip).map (fun n => if p.1 then -(n : ℚ) else (n : ℚ))
  | [ip, fp] =>
    match digitsToNat? ip, digitsToNat? fp with
    | some n, some f =>
        let q : ℚ := (n : ℚ) + (f : ℚ) / ((10 : ℚ) ^ fp.length)
        some (if p.1 then -q else q)
    | _, _ => none
  | _ => none

/-- A cell of the amount column after `read_csv` type inference. -/
inductive Cell where
  | num (q : ℚ)
  | text (s : String)
deriving DecidableEq

def inferCell (s : String) : Cell :=
  match parse_amount s with
  | some q => .num q
  | none => .text s

/-- An expense row as produced by the Loader. -/
structure LoadedRow where
  date : Date
  category : String
  amount : Cell
  description : String
deriving DecidableEq

/-- A raw tabular file: named columns of string cells (the dataframe
`read_csv` builds before type inference; pandas keeps columns
rectangular and column names distinct). -/
structure RawTable where
  cols : List (String × List String)

/-- The cells of a named column. -/
def RawTable.col (t : RawTable) (name : String) : List String :=
  (t.cols.lookup name).getD []

def required_columns : List String := ["date", "category", "amount", "description"]

/-- The check `all(col in self.data.columns for col in required_columns)`. -/
def RawTable.hasRequired (t : RawTable) : Bool :=
  required_columns.all (fun c => t.cols.any (fun kv => kv.1 == c))

/-- Failure modes of `load_data`; both surface as raised exceptions.
`schemaError` is the explicit `ValueError` for missing columns,
`parseError` is the exception `pandas.to_datetime` raises on a
malformed date cell. -/
inductive LoadError where
  | schemaError
  | parseError
deriving DecidableEq

/-- Model of `pandas.to_datetime` over the whole date column: fails as soon as
one cell is malformed. -/
def parse_dates : List String → Option (List Date)
  | [] => some []
  | c :: cs =>
    match parse_date c with
    | none => none
    | some d => (parse_dates cs).map (fun ds => d :: ds)

/-- Reassemble rows from the four columns (pandas guarantees equal
column lengths, so the truncating base case is never reached on real
input). -/
def zipRows : List Date → List String → List String → List String → List LoadedRow
  | d :: ds, c :: cs, a :: as, x :: xs => ⟨d, c, inferCell a, x⟩ :: zipRows ds cs as xs
  | _, _, _, _ => []

/-- Model of `ExpenseAnalyzer.load_data`: read the CSV, require the
four columns, convert the date column.  The amount column undergoes
only `read_csv` type inference and is never validated. -/
def load_data (t : RawTable) : Except LoadError (List LoadedRow) :=
  if t.hasRequired then
    match parse_dates (t.col "date") with
    | none => .error .parseError
    | some ds =>
        .ok (zipRows ds (t.col "category") (t.col "amount") (t.col "description"))
  else .error .schemaError

/-! ### The analyzer state and pipeline
(`ExpenseAnalyzer.auto_categorize` / `detect_anomalies` /
`generate_summary`) -/

/-- An expense record in the analyzer dataframe.  `amount` is the
numeric value of the cell (the pipeline operations are modelled on
datasets whose amount cells parsed numerically — on mixed-type columns
the underlying libraries raise before any of the claimed behaviour is
reached).  `anomaly` models the dataframe's `anomaly` column: `none`
while the column is absent, i.e. before the detector has written it. -/
structure ExpenseRecord where
  date : Date
  category : String
  amount : ℚ
  description : String
  anomaly : Option ℤ
deriving DecidableEq

/-- The mutable attributes of an `ExpenseAnalyzer` object read or
written by the pipeline methods. -/
structure AnalyzerState where
  contamination : ℚ
  budgets : List (String × ℚ)
  category_keywords : List (String × List String)
  data : Option (List ExpenseRecord)
  anomalies : Option (List ExpenseRecord)
deriving DecidableEq

def default_budgets : List (String × ℚ) :=
  [("Food", 500), ("Travel", 1000), ("Utilities", 300), ("Entertainment", 200)]

def default_category_keywords : List (String × List String) :=
  [("Food", ["coffee", "restaurant", "cafe", "lunch", "dinner", "grocery"]),
   ("Travel", ["flight", "uber", "taxi", "hotel", "train"]),
   ("Utilities", ["electric", "water", "internet", "bill"]),
   ("Entertainment", ["movie", "concert", "game", "ticket"])]

/-- Model of `ExpenseAnalyzer.__init__`. -/
def initState (contamination : ℚ) : AnalyzerState :=
  { contamination := contamination
    budgets := default_budgets
    category_keywords := default_category_keywords
    data := none
    anomalies := none }

/-- Failure modes of the pipeline methods: `notLoaded` is the
`ValueError` raised when `self.data is None`; `emptyFit` is the
`ValueError` the sklearn estimator raises when fitted on an empty
feature matrix (zero samples). -/
inductive PipeError where
  | notLoaded
  | emptyFit
deriving DecidableEq

/-- State effect of a successful `load_data` call on the analyzer
object, for a dataset whose amount cells all parsed numerically:
`self.data` is replaced by the freshly loaded rows (which carry no
anomaly column); no other attribute — in particular `self.anomalies` —
is assigned by `load_data`. -/
def loadParsed (rows : List ExpenseRecord) (s : AnalyzerState) : AnalyzerState :=
  { s with data := some (rows.map (fun r => { r with anomaly := none })) }

/-- Model of the inner closure `categorize_description` of
`auto_categorize`: lower-case the description, walk the keyword table
in order, return the first category one of whose keywords occurs in
the description, else `"Other"`. -/
def categorize_description (table : List (String × List String)) (description : String) :
    String :=
  let d := lowerStr description
  match table.find? (fun ck => ck.2.any (fun kw => containsSub d kw)) with
  | some ck => ck.1
  | none => "Other"

/-- Model of `ExpenseAnalyzer.auto_categorize`: overwrite every
record's category with the keyword-derived one. -/
def auto_categorize (s : AnalyzerState) : Except PipeError AnalyzerState :=
  match s.data with
  | none => .error .notLoaded
  | some rows =>
      .ok { s with data := some (rows.map (fun r =>
        { r with category := categorize_description s.category_keywords r.description })) }

/-- Model of `preprocess_data`: the (amount, day_of_week, month) feature vector
of a record. -/
def features (r : ExpenseRecord) : ℚ × ℤ × ℕ := (r.amount, dayOfWeek r.date, r.date.month)

/-- The fitted outlier model: `fit_predict` returns one label per
sample (+1 inlier, −1 outlier).  sklearn guarantees the output length;
the concrete IsolationForest is an implementation detail behind this
interface. -/
def OutlierModel : Type :=
  (fs : List (ℚ × ℤ × ℕ)) → { ls : List ℤ // ls.length = fs.length }

/-- Write the label column: `self.data['anomaly'] = labels`. -/
def setAnomaly : List ExpenseRecord → List ℤ → List ExpenseRecord
  | r :: rs, l :: ls => { r with anomaly := some l } :: setAnomaly rs ls
  | rs, [] => rs
  | [], _ => []

/-- Model of `ExpenseAnalyzer.detect_anomalies`: label every record,
then snapshot the flagged subset into `self.anomalies`. -/
def detect_anomalies (model : OutlierModel) (s : AnalyzerState) :
    Except PipeError AnalyzerState :=
  match s.data with
  | none => .error .notLoaded
  | some rows =>
    if rows.isEmpty then .error .emptyFit
    else
      let labels := (model (rows.map features)).val
      let rows2 := setAnomaly rows labels
      .ok { s with
            data := some rows2
            anomalies := some (rows2.filter (fun r => r.anomaly == some (-1))) }

/-! ### Summarizer (`ExpenseAnalyzer.generate_summary`) -/

/-- One entry of the budget-status mapping. -/
structure BudgetStatus where
  budget : ℚ
  spent : ℚ
  remaining : ℚ
  status : String
deriving DecidableEq

/-- The summary structure returned by `generate_summary`. -/
structure Summary where
  total_expenses : ℚ
  avg_expense : ℚ
  category_breakdown : List (String × ℚ)
  anomaly_count : ℕ
  budget_status : List (String × BudgetStatus)
deriving DecidableEq

/-- Lexicographic character-list order (the order pandas sorts string
group keys by). -/
def lexLe : List Char → List Char → Bool
  | [], _ => true
  | _ :: _, [] => false
  | a :: as, b :: bs => if a = b then lexLe as bs else decide (a < b)

def insertSorted (x : String) : List String → List String
  | [] => [x]
  | y :: ys => if lexLe x.data y.data then x :: y :: ys else y :: insertSorted x ys

def sortStrings : List String → List String
  | [] => []
  | x :: xs => insertSorted x (sortStrings xs)

/-- Model of `self.data.groupby('category')['amount'].sum()`: one entry per
distinct category value, keys in sorted order, each mapped to the sum
of the matching amounts. -/
def category_breakdown (rows : List ExpenseRecord) : List (String × ℚ) :=
  (sortStrings (rows.map (fun r => r.category))).dedup.map
    (fun c => (c, ((rows.filter (fun r => r.category == c)).map (fun r => r.amount)).sum))

/-- The pure computation inside `generate_summary`, as a function of
the three attributes the method reads (`self.data` rows,
`self.budgets`, `self.anomalies`).  The pandas mean of an empty column
is NaN; the model divides in ℚ, where the empty case gives 0 — no
claim inspects the average of an empty dataset, only that no exception
is raised. -/
def summarize (rows : List ExpenseRecord) (budgets : List (String × ℚ))
    (anomalies : Option (List ExpenseRecord)) : Summary :=
  let total := (rows.map (fun r => r.amount)).sum
  let avg := total / (rows.length : ℚ)
  let breakdown := category_breakdown rows
  let count := match anomalies with
    | some l => l.length
    | none => 0
  let statusTable := budgets.map (fun cb =>
    let spent := (breakdown.lookup cb.1).getD 0
    (cb.1, ({ budget := cb.2
              spent := spent
              remaining := cb.2 - spent
              status := if spent > cb.2 then "Over budget" else "Within budget" } :
              BudgetStatus)))
  { total_expenses := total
    avg_expense := avg
    category_breakdown := breakdown
    anomaly_count := count
    budget_status := statusTable }

/-- Model of `ExpenseAnalyzer.generate_summary`.  The method body
assigns no attribute, so the returned state is the input state. -/
def generate_summary (s : AnalyzerState) : Except PipeError (AnalyzerState × Summary) :=
  match s.data with
  | none => .error .notLoaded
  | some rows => .ok (s, summarize rows s.budgets s.anomalies)

/-! ### Query dispatcher (`app.handle_query`) -/

def known_categories : List String := ["food", "travel", "utilities", "entertainment"]

def month_names : List String :=
  ["january", "february", "march", "april", "may", "june",
   "july", "august", "september", "october", "november", "december"]

/-- The observable responses of `handle_query`. -/
inductive QueryResponse where
  | budgetTable (table : List (String × ℚ))
  | expenses (category : String) (rows : List (Date × ℚ × String))
  | updateBudgetPrompt
  | help
deriving DecidableEq

/-- Model of `app.handle_query` on a loaded analyzer.  `currentYear`
models `pd.Timestamp.now().year` at the time of the query.  The
`strftime('%Y-%m') == f"{year}-{month:02d}"` comparison is modelled as
numeric year-month equality (equivalent for four-digit years). -/
def handle_query (currentYear : ℕ) (messageContent : String)
    (data : List ExpenseRecord) (budgets : List (String × ℚ)) : QueryResponse :=
  let content := lowerStr messageContent
  if containsSub content "budget" then .budgetTable budgets
  else if known_categories.any (fun c => containsSub content c) then
    let category :=
      capitalizeStr ((known_categories.find? (fun c => containsSub content c)).getD "")
    let dateFilter : Option (ℕ × ℕ) :=
      (month_names.find? (fun m => containsSub content m)).map (fun m =>
        ((if containsSub content "2025" then 2025 else currentYear),
         month_names.indexOf m + 1))
    let expenses := (data.filter (fun r => r.category == category)).map
      (fun r => (r.date, r.amount, r.description))
    let expenses2 := match dateFilter with
      | some ym => expenses.filter (fun t => t.1.year == ym.1 && t.1.month == ym.2)
      | none => expenses
    .expenses category expenses2
  else if containsSub content "update_budget" then .updateBudgetPrompt
  else .help

/-! ### Pipeline traces and concrete material -/

/-- Whether a fallible operation succeeded. -/
def exceptIsOk {ε α : Type} : Except ε α → Bool
  | .ok _ => true
  | .error _ => false

/-- A model that labels every sample an outlier (an admissible
behaviour of the abstract outlier interface, used to instantiate
traces). -/
def flagAll : OutlierModel := fun fs => ⟨fs.map (fun _ => -1), by simp⟩

/-- The number of records of the current dataframe whose anomaly flag
is set (label −1). -/
def flaggedCount (s : AnalyzerState) : ℕ :=
  ((s.data.getD []).filter (fun r => r.anomaly == some (-1))).length

/-- A pipeline step on the analyzer object that is not a reload:
re-categorization or a fresh detector run. -/
inductive PipeStep : AnalyzerState → AnalyzerState → Prop where
  | categorize {s t : AnalyzerState} : auto_categorize s = .ok t → PipeStep s t
  | detect {s t : AnalyzerState} (model : OutlierModel) :
      detect_anomalies model s = .ok t → PipeStep s t

/-- Reflexive-transitive closure of `PipeStep`. -/
inductive PipeReach : AnalyzerState → AnalyzerState → Prop where
  | refl (s : AnalyzerState) : PipeReach s s
  | tail {s t u : AnalyzerState} : PipeReach s t → PipeStep t u → PipeReach s u

/-- The anomalies snapshot agrees with the flag column of the current
dataframe. -/
def SnapshotInv (s : AnalyzerState) : Prop :=
  ∃ rows a, s.data = some rows ∧ s.anomalies = some a ∧
    a.length = (rows.filter (fun r => r.anomaly == some (-1))).length

/-- A fresh analyzer with the default contamination 0.1. -/
def s0 : AnalyzerState := initState (1 / 10)

def r1 : ExpenseRecord := ⟨⟨2025, 1, 1⟩, "Uncategorized", 10, "Coffee shop", none⟩

def r2 : ExpenseRecord := ⟨⟨2025, 1, 2⟩, "Uncategorized", 20, "Flight ticket", none⟩

/-- Load one record, run the detector. -/
def afterDetect : Except PipeError AnalyzerState :=
  detect_anomalies flagAll (loadParsed [r1] s0)

/-- ... then load a fresh two-record dataset without re-running the
detector. -/
def afterReload : Except PipeError AnalyzerState := afterDetect.map (loadParsed [r1, r2])

/-- The state after the detector run of `afterDetect`. -/
def wS1 : AnalyzerState :=
  match afterDetect with
  | .ok s => s
  | .error _ => s0

/-- The summary computed on `wS1`. -/
def wP5 : AnalyzerState × Summary :=
  match generate_summary wS1 with
  | .ok p => p
  | .error _ => (wS1, summarize [] [] none)

/-- A loaded two-record analyzer. -/
def sampleState : AnalyzerState := loadParsed [r1, r2] s0

def sampleRows : List ExpenseRecord :=
  [{ r1 with anomaly := none }, { r2 with anomaly := none }]

/-- The state after auto-categorizing `sampleState`. -/
def wCatState : AnalyzerState :=
  match auto_categorize sampleState with
  | .ok s => s
  | .error _ => sampleState

def wCatRows : List ExpenseRecord := wCatState.data.getD []

def wCatRec : ExpenseRecord := wCatRows.getD 0 ⟨⟨0, 0, 0⟩, "", 0, "", none⟩

/-- The summary computed on `sampleState`. -/
def wP6 : AnalyzerState × Summary :=
  match generate_summary sampleState with
  | .ok p => p
  | .error _ => (sampleState, summarize [] [] none)

/-- The budget status computed for a single budget entry on an empty
dataset. -/
def wSt4 : BudgetStatus :=
  (((summarize [] [("Food", 500)] none).budget_status.lookup "Food")).getD ⟨0, 0, 0, ""⟩

/-- A table whose only amount cell is not numeric while every date
cell parses. -/
def cexTable7 : RawTable :=
  ⟨[("date", ["2025-01-01"]), ("category", ["x"]),
    ("amount", ["abc"]), ("description", ["Coffee shop"])]⟩

/-- The four-row example table of well-formed records. -/
def wTable7 : RawTable :=
  ⟨[("date", ["2025-01-01", "2025-01-02", "2025-01-03", "2025-01-04"]),
    ("category", ["Uncategorized", "Uncategorized", "Uncategorized", "Uncategorized"]),
    ("amount", ["4.50", "320.00", "75.00", "18.00"]),
    ("description", ["Coffee shop", "Flight ticket", "Electric bill", "Movie ticket"])]⟩

/-- A January 2024 food record. -/
def rQ : ExpenseRecord := ⟨⟨2024, 1, 15⟩, "Food", 10, "Coffee shop", none⟩

/-- A January 2025 food record. -/
def recJan : ExpenseRecord := ⟨⟨2025, 1, 20⟩, "Food", 12, "Coffee shop", none⟩

/-- The test `keywordHit kws d` holds when some keyword of `kws` occurs in the
lower-cased `d` (the per-category test of the Categorizer). -/
def keywordHit (kws : List String) (d : String) : Bool :=
  kws.any (fun kw => containsSub (lowerStr d) kw)

/-! ## Lemmas -/

/-- Whatever the keyword table, the Categorizer returns one of its
keys or the sentinel. -/
lemma categorize_description_mem (table : List (String × List String)) (d : String) :
    categorize_description table d ∈ table.map Prod.fst ∨
      categorize_description table d = "Other" := by
  simp only [categorize_description]
  cases h : table.find? (fun ck => ck.2.any (fun kw => containsSub (lowerStr d) kw)) with
  | none => exact Or.inr rfl
  | some ck => exact Or.inl (List.mem_map_of_mem _ (List.mem_of_find?_eq_some h))

lemma mem_insertSorted (x y : String) (l : List String) :
    y ∈ insertSorted x l ↔ y = x ∨ y ∈ l := by
  induction l with
  | nil => simp [insertSorted]
  | cons z zs ih =>
    simp only [insertSorted]
    cases hxz : lexLe x.data z.data <;> simp [hxz, List.mem_cons, ih] <;> tauto

lemma mem_sortStrings (y : String) (l : List String) : y ∈ sortStrings l ↔ y ∈ l := by
  induction l with
  | nil => simp [sortStrings]
  | cons x xs ih => simp [sortStrings, mem_insertSorted, ih, List.mem_cons]

lemma lookup_map_self {β : Type} (f : String → β) (keys : List String) (c : String) :
    (keys.map (fun k => (k, f k))).lookup c = if c ∈ keys then some (f c) else none := by
  induction keys with
  | nil => simp
  | cons k ks ih =>
    simp only [List.map_cons, List.lookup, List.mem_cons]
    by_cases h : c = k
    · subst h; simp
    · have hbe : (c == k) = false := by simp [h]
      simp [hbe, ih, h]

/-- The `.get(category, 0)` read of the groupby result equals the sum
over the matching records (0 when the category never occurs). -/
lemma breakdown_lookup (rows : List ExpenseRecord) (c : String) :
    ((category_breakdown rows).lookup c).getD 0 =
      ((rows.filter (fun r => r.category == c)).map (fun r => r.amount)).sum := by
  unfold category_breakdown
  rw [lookup_map_self]
  by_cases h : c ∈ (sortStrings (rows.map (fun r => r.category))).dedup
  · simp [h]
  · have hfil : rows.filter (fun r => r.category == c) = [] := by
      rw [List.filter_eq_nil_iff]
      intro r hr
      simp only [beq_iff_eq]
      intro hrc
      apply h
      rw [List.mem_dedup, mem_sortStrings]
      have h1 : r.category ∈ rows.map (fun r => r.category) := List.mem_map_of_mem _ hr
      rw [hrc] at h1
      exact h1
    rw [if_neg h, hfil]
    simp

lemma sum_filter_not (p : ExpenseRecord → Bool) (rows : List ExpenseRecord) :
    ((rows.filter p).map (fun r => r.amount)).sum +
      ((rows.filter (fun r => !(p r))).map (fun r => r.amount)).sum =
      (rows.map (fun r => r.amount)).sum := by
  induction rows with
  | nil => simp
  | cons r rs ih =>
    cases h : p r <;> simp [List.filter_cons, h] <;> linarith [ih]

/-- Summing the per-key filtered sums over a duplicate-free key list
covering every record's category recovers the total. -/
lemma sum_breakdown_keys (keys : List String) :
    ∀ rows : List ExpenseRecord, keys.Nodup → (∀ r ∈ rows, r.category ∈ keys) →
      (keys.map (fun c =>
          ((rows.filter (fun r => r.category == c)).map (fun r => r.amount)).sum)).sum
        = (rows.map (fun r => r.amount)).sum := by
  induction keys with
  | nil =>
    intro rows _ h
    cases rows with
    | nil => simp
    | cons r rs => exact absurd (h r (by simp)) (by simp)
  | cons k ks ih =>
    intro rows hnd hmem
    have hknotks : k ∉ ks := (List.nodup_cons.mp hnd).1
    have hndks : ks.Nodup := (List.nodup_cons.mp hnd).2
    have hmem' : ∀ r ∈ rows.filter (fun r => !(r.category == k)), r.category ∈ ks := by
      intro r hr
      have h1 := List.mem_filter.mp hr
      have h3 : r.category ≠ k := by
        have h2 := h1.2
        simp at h2
        exact h2
      rcases List.mem_cons.mp (hmem r h1.1) with h4 | h4
      · exact absurd h4 h3
      · exact h4
    have hrw : ∀ c ∈ ks,
        ((rows.filter (fun r => r.category == c)).map (fun r => r.amount)).sum =
          (((rows.filter (fun r => !(r.category == k))).filter
              (fun r => r.category == c)).map (fun r => r.amount)).sum := by
      intro c hc
      have hck : c ≠ k := fun hck => hknotks (hck ▸ hc)
      have hfe : rows.filter (fun r => r.category == c) =
          (rows.filter (fun r => !(r.category == k))).filter (fun r => r.category == c) := by
        rw [List.filter_filter]
        apply List.filter_congr
        intro r _
        by_cases hrc : r.category = c
        · have hrk : (r.category == k) = false := by simp [hrc, hck]
          simp [hrc, hrk, hck]
        · simp [hrc]
      rw [hfe]
    simp only [List.map_cons, List.sum_cons]
    rw [List.map_congr_left hrw]
    rw [ih (rows.filter (fun r => !(r.category == k))) hndks hmem']
    exact sum_filter_not (fun r => r.category == k) rows

lemma lookup_map_status (g : String × ℚ → BudgetStatus) (budgets : List (String × ℚ))
    (c : String) (st : BudgetStatus)
    (h : (budgets.map (fun cb => (cb.1, g cb))).lookup c = some st) :
    ∃ cb ∈ budgets, st = g cb := by
  induction budgets with
  | nil => simp at h
  | cons cb bs ih =>
    simp only [List.map_cons, List.lookup] at h
    cases hbc : c == cb.1
    · rw [hbc] at h
      obtain ⟨cb', hmem, rfl⟩ := ih h
      exact ⟨cb', by simp [hmem], rfl⟩
    · rw [hbc] at h
      simp only [Option.some.injEq] at h
      exact ⟨cb, by simp, h.symm⟩

/-! ## Claims -/

/-- C1: for every record, the Categorizer lower-cases the description
and tests it against each category's keyword set in the fixed order
Food, Travel, Utilities, Entertainment; it assigns the first category
owning a keyword occurring as a substring of the lower-cased
description, `"Other"` when none matches (in particular for the empty
description), and unconditionally overwrites any pre-existing
category. -/
theorem C1_categorizer_first_match_overwrite :
    (∀ (s : AnalyzerState) (rows : List ExpenseRecord), s.data = some rows →
      auto_categorize s = .ok { s with data := some (rows.map (fun r =>
        { r with category := categorize_description s.category_keywords r.description })) })
    ∧ (∀ d : String,
        categorize_description default_category_keywords d =
          if keywordHit ["coffee", "restaurant", "cafe", "lunch", "dinner", "grocery"] d then
            "Food"
          else if keywordHit ["flight", "uber", "taxi", "hotel", "train"] d then "Travel"
          else if keywordHit ["electric", "water", "internet", "bill"] d then "Utilities"
          else if keywordHit ["movie", "concert", "game", "ticket"] d then "Entertainment"
          else "Other")
    ∧ categorize_description default_category_keywords "" = "Other" := by
  refine ⟨?_, ?_, by decide⟩
  · intro s rows h
    unfold auto_categorize
    rw [h]
  · intro d
    cases hF : keywordHit ["coffee", "restaurant", "cafe", "lunch", "dinner", "grocery"] d <;>
      cases hT : keywordHit ["flight", "uber", "taxi", "hotel", "train"] d <;>
        cases hU : keywordHit ["electric", "water", "internet", "bill"] d <;>
          cases hE : keywordHit ["movie", "concert", "game", "ticket"] d <;>
            simp only [keywordHit] at hF hT hU hE <;>
              simp [categorize_description, default_category_keywords, List.find?,
                hF, hT, hU, hE]

/-- Witness for C1 on a concrete loaded analyzer. -/
theorem C1_witness :
    sampleState.data = some sampleRows ∧
    auto_categorize sampleState = .ok { sampleState with data := some (sampleRows.map (fun r =>
      { r with category := categorize_description sampleState.category_keywords
                 r.description })) } :=
  ⟨rfl, C1_categorizer_first_match_overwrite.1 sampleState sampleRows rfl⟩

/-- C2: after the Categorizer runs, every record's category is a key
of the keyword table or `"Other"`; for the configured table these are
Food, Travel, Utilities, Entertainment, Other. -/
theorem C2_category_invariant (s s' : AnalyzerState) (rows : List ExpenseRecord)
    (r : ExpenseRecord) (hok : auto_categorize s = .ok s') (hdata : s'.data = some rows)
    (hr : r ∈ rows) :
    (r.category ∈ s.category_keywords.map Prod.fst ∨ r.category = "Other")
    ∧ (s.category_keywords = default_category_keywords →
        r.category ∈ (["Food", "Travel", "Utilities", "Entertainment", "Other"] :
          List String)) := by
  unfold auto_categorize at hok
  cases hd : s.data with
  | none => rw [hd] at hok; exact absurd hok (by simp)
  | some rows0 =>
    rw [hd] at hok
    have hs' : s' = { s with data := some (rows0.map (fun r =>
        { r with category := categorize_description s.category_keywords r.description })) } := by
      injection hok with h; exact h.symm
    rw [hs'] at hdata
    simp only [Option.some.injEq] at hdata
    subst hdata
    obtain ⟨r0, _, rfl⟩ := List.mem_map.mp hr
    have hmem := categorize_description_mem s.category_keywords r0.description
    refine ⟨hmem, fun hdef => ?_⟩
    rw [hdef] at hmem ⊢
    simp only [default_category_keywords, List.map_cons, List.map_nil] at hmem
    rcases hmem with h | h
    · simp only [List.mem_cons, List.not_mem_nil, or_false] at h
      rcases h with h | h | h | h <;> simp [default_category_keywords, h]
    · simp [default_category_keywords, h]

/-- Witness for C2 on a concrete categorized record. -/
theorem C2_witness :
    auto_categorize sampleState = .ok wCatState ∧ wCatState.data = some wCatRows ∧
    wCatRec ∈ wCatRows ∧
    ((wCatRec.category ∈ sampleState.category_keywords.map Prod.fst ∨
        wCatRec.category = "Other")
      ∧ (sampleState.category_keywords = default_category_keywords →
          wCatRec.category ∈ (["Food", "Travel", "Utilities", "Entertainment", "Other"] :
            List String))) :=
  ⟨rfl, rfl, by decide,
    C2_category_invariant sampleState wCatState wCatRows wCatRec rfl rfl (by decide)⟩

/-- C3: per-category spend equals the sum of amounts of records of
that category (a category with no matching record reads back 0, since
the sum over the empty filter is 0), every budget-status entry's
`spent` is that sum for its key, and the per-category totals sum to
`total_expenses`.  Amounts are exact rationals, so the equalities hold
exactly (stronger than the floating-point tolerance the claim
allows). -/
theorem C3_summary_partition (rows : List ExpenseRecord) (budgets : List (String × ℚ))
    (anoms : Option (List ExpenseRecord)) :
    (∀ c : String,
      ((summarize rows budgets anoms).category_breakdown.lookup c).getD 0 =
        ((rows.filter (fun r => r.category == c)).map (fun r => r.amount)).sum)
    ∧ (summarize rows budgets anoms).budget_status.map (fun p => (p.1, p.2.spent)) =
        budgets.map (fun cb => (cb.1,
          ((rows.filter (fun r => r.category == cb.1)).map (fun r => r.amount)).sum))
    ∧ ((summarize rows budgets anoms).category_breakdown.map (fun p => p.2)).sum =
        (summarize rows budgets anoms).total_expenses := by
  refine ⟨?_, ?_, ?_⟩
  · intro c
    simpa [summarize] using breakdown_lookup rows c
  · simp only [summarize, List.map_map]
    apply List.map_congr_left
    intro cb _
    simp [Function.comp, breakdown_lookup rows cb.1]
  · simp only [summarize]
    unfold category_breakdown
    rw [List.map_map]
    exact sum_breakdown_keys _ rows (List.nodup_dedup _) (fun r hr => by
      rw [List.mem_dedup, mem_sortStrings]
      exact List.mem_map_of_mem _ hr)

/-- C4: a budget-status entry is marked `"Over budget"` exactly when
spent strictly exceeds the budget ceiling; when spent equals the
budget, the status is `"Within budget"`. -/
theorem C4_over_budget_iff (rows : List ExpenseRecord) (budgets : List (String × ℚ))
    (anoms : Option (List ExpenseRecord)) (c : String) (st : BudgetStatus)
    (h : (summarize rows budgets anoms).budget_status.lookup c = some st) :
    (st.status = "Over budget" ↔ st.spent > st.budget)
    ∧ (st.spent = st.budget → st.status = "Within budget") := by
  obtain ⟨cb, hmem, rfl⟩ := lookup_map_status _ budgets c st (by simpa [summarize] using h)
  by_cases hgt : ((category_breakdown rows).lookup cb.1).getD 0 > cb.2
  · refine ⟨⟨fun _ => by simpa [hgt] using hgt, fun _ => by simp [hgt]⟩, fun heq => ?_⟩
    have h3 := heq
    simp only [] at h3
    rw [h3] at hgt
    exact absurd hgt (lt_irrefl _)
  · refine ⟨⟨fun hstat => ?_, fun hgt2 => absurd (by simpa using hgt2) hgt⟩,
      fun _ => by simp [hgt]⟩
    have : ("Within budget" : String) = "Over budget" := by simpa [hgt] using hstat
    exact absurd this (by decide)

/-- Witness for C4 on a concrete budget-status entry. -/
theorem C4_witness :
    (summarize [] [("Food", 500)] none).budget_status.lookup "Food" = some wSt4
    ∧ ((wSt4.status = "Over budget" ↔ wSt4.spent > wSt4.budget)
      ∧ (wSt4.spent = wSt4.budget → wSt4.status = "Within budget")) :=
  ⟨rfl, C4_over_budget_iff [] [("Food", 500)] none "Food" wSt4 rfl⟩

lemma countFlagged_map_category (rows : List ExpenseRecord) (f : ExpenseRecord → String) :
    ((rows.map (fun r => { r with category := f r })).filter
        (fun r => r.anomaly == some (-1))).length =
      (rows.filter (fun r => r.anomaly == some (-1))).length := by
  induction rows with
  | nil => simp
  | cons r rs ih =>
    cases h : (r.anomaly == some (-1)) <;> simp [List.filter_cons, h, ih]

/-- The detector establishes the snapshot invariant. -/
lemma detect_establishes (model : OutlierModel) (s t : AnalyzerState)
    (h : detect_anomalies model s = .ok t) : SnapshotInv t := by
  unfold detect_anomalies at h
  cases hd : s.data with
  | none => rw [hd] at h; exact absurd h (by simp)
  | some rows =>
    rw [hd] at h
    cases he : rows.isEmpty with
    | true => simp [he] at h
    | false =>
      simp only [he, Bool.false_eq_true, if_false, Except.ok.injEq] at h
      refine ⟨setAnomaly rows (model (rows.map features)).val,
        (setAnomaly rows (model (rows.map features)).val).filter
          (fun r => r.anomaly == some (-1)), ?_, ?_, rfl⟩ <;> rw [← h]

/-- Re-categorization preserves the snapshot invariant: it rewrites
only the category column, leaving both the anomaly column and the
snapshot untouched. -/
lemma categorize_preserves (s t : AnalyzerState) (h : auto_categorize s = .ok t)
    (hinv : SnapshotInv s) : SnapshotInv t := by
  obtain ⟨rows, a, hdata, hanom, hlen⟩ := hinv
  unfold auto_categorize at h
  rw [hdata] at h
  injection h with h
  refine ⟨rows.map (fun r =>
      { r with category := categorize_description s.category_keywords r.description }),
    a, ?_, ?_, ?_⟩
  · rw [← h]
  · rw [← h]; exact hanom
  · rw [hlen]; exact (countFlagged_map_category rows _).symm

lemma reach_preserves (s t : AnalyzerState) (h : PipeReach s t) (hinv : SnapshotInv s) :
    SnapshotInv t := by
  induction h with
  | refl => exact hinv
  | tail _ hstep ih =>
    cases hstep with
    | categorize hc => exact categorize_preserves _ _ hc ih
    | detect model hd => exact detect_establishes model _ _ hd

/-- C5 counterexample: run the detector (which flags the single loaded
record), then load a fresh dataset without re-running it, then compute
the summary.  The summary is computed after the detector has run, yet
`anomaly_count` is 1 while no record of the current data has its
anomaly flag set: the count reflects the stale snapshot, not the
records at computation time. -/
theorem C5_counterexample :
    (afterReload.bind (fun s => (generate_summary s).map (fun p => p.2.anomaly_count))) =
      .ok 1
    ∧ afterReload.map flaggedCount = .ok 0
    ∧ afterDetect.map flaggedCount = .ok 1 := by
  refine ⟨by decide, by decide, by decide⟩

/-- C5 (amended): when the Summary is computed after the Detector has
run and no reload of the data intervened (re-categorization and
further detector runs are fine), `anomaly_count` equals the number of
records whose anomaly flag is set at the time of computation. -/
theorem C5_anomaly_count_after_detect (model : OutlierModel) (s s₁ s₂ : AnalyzerState)
    (p : AnalyzerState × Summary)
    (hdet : detect_anomalies model s = .ok s₁) (hreach : PipeReach s₁ s₂)
    (hsum : generate_summary s₂ = .ok p) :
    p.2.anomaly_count = flaggedCount s₂ := by
  obtain ⟨rows, a, hdata, hanom, hlen⟩ :=
    reach_preserves s₁ s₂ hreach (detect_establishes model s s₁ hdet)
  unfold generate_summary at hsum
  rw [hdata] at hsum
  injection hsum with hsum
  rw [← hsum]
  unfold flaggedCount
  rw [hdata, hanom]
  simpa [summarize] using hlen

/-- Witness for the amended C5: detector run, no further step, summary
read off immediately. -/
theorem C5_witness :
    detect_anomalies flagAll (loadParsed [r1] s0) = .ok wS1 ∧ PipeReach wS1 wS1
    ∧ generate_summary wS1 = .ok wP5 ∧ wP5.2.anomaly_count = flaggedCount wS1 :=
  ⟨rfl, .refl _, rfl,
    C5_anomaly_count_after_detect flagAll (loadParsed [r1] s0) wS1 wS1 wP5 rfl
      (.refl _) rfl⟩

/-- C6: `generate_summary` mutates nothing (the state it returns is
its input state), calling it again yields the identical output, and
its result depends only on the fields it reads (the records, the
budgets and the anomalies snapshot). -/
theorem C6_summary_pure (s : AnalyzerState) (p : AnalyzerState × Summary)
    (h : generate_summary s = .ok p) :
    p.1 = s ∧ generate_summary p.1 = .ok p
    ∧ ∀ t : AnalyzerState, t.data = s.data → t.budgets = s.budgets →
        t.anomalies = s.anomalies → generate_summary t = .ok (t, p.2) := by
  unfold generate_summary at h
  cases hd : s.data with
  | none => rw [hd] at h; exact absurd h (by simp)
  | some rows =>
    rw [hd] at h
    injection h with h
    refine ⟨by rw [← h], ?_, ?_⟩
    · rw [← h]
      show generate_summary s = Except.ok (s, summarize rows s.budgets s.anomalies)
      unfold generate_summary
      rw [hd]
    · intro t h1 h2 h3
      unfold generate_summary
      rw [h1]
      show Except.ok (t, summarize rows t.budgets t.anomalies) = Except.ok (t, p.2)
      rw [h2, h3, ← h]

/-- Witness for C6 on a concrete loaded analyzer. -/
theorem C6_witness :
    generate_summary sampleState = .ok wP6 ∧ wP6.1 = sampleState :=
  ⟨rfl, (C6_summary_pure sampleState wP6 rfl).1⟩

lemma parse_dates_eq_none (cs : List String) :
    parse_dates cs = none ↔ ∃ c ∈ cs, parse_date c = none := by
  induction cs with
  | nil => simp [parse_dates]
  | cons c cs ih =>
    simp only [parse_dates]
    cases hc : parse_date c with
    | none =>
      simp only [true_iff]
      exact ⟨c, by simp, hc⟩
    | some d => simp [hc, ih]

lemma parse_dates_length (cs : List String) (ds : List Date)
    (h : parse_dates cs = some ds) : ds.length = cs.length := by
  induction cs generalizing ds with
  | nil =>
    simp only [parse_dates, Option.some.injEq] at h
    rw [← h]
    rfl
  | cons c cs ih =>
    simp only [parse_dates] at h
    cases hc : parse_date c with
    | none => rw [hc] at h; simp at h
    | some d =>
      rw [hc] at h
      rw [Option.map_eq_some'] at h
      obtain ⟨ds', hds', hcons⟩ := h
      rw [← hcons]
      simp [ih ds' hds']

lemma zipRows_fields (ds : List Date) :
    ∀ (cs as xs : List String),
      cs.length = ds.length → as.length = ds.length → xs.length = ds.length →
      (zipRows ds cs as xs).map (fun r => r.date) = ds
      ∧ (zipRows ds cs as xs).map (fun r => r.category) = cs
      ∧ (zipRows ds cs as xs).map (fun r => r.amount) = as.map inferCell
      ∧ (zipRows ds cs as xs).map (fun r => r.description) = xs := by
  induction ds with
  | nil =>
    intro cs as xs h1 h2 h3
    have hc := List.length_eq_zero.mp h1
    have ha := List.length_eq_zero.mp h2
    have hx := List.length_eq_zero.mp h3
    subst hc; subst ha; subst hx
    simp [zipRows]
  | cons d ds ih =>
    intro cs as xs h1 h2 h3
    cases cs with
    | nil => simp at h1
    | cons c cs' =>
      cases as with
      | nil => simp at h2
      | cons a as' =>
        cases xs with
        | nil => simp at h3
        | cons x xs' =>
          have hrec := ih cs' as' xs' (by simpa using h1) (by simpa using h2)
            (by simpa using h3)
          simp only [zipRows, List.map_cons]
          exact ⟨by rw [hrec.1], by rw [hrec.2.1], by rw [hrec.2.2.1], by rw [hrec.2.2.2]⟩

/-- C7 counterexample: a table whose single amount cell `"abc"` cannot
be parsed as a number (while its date parses) loads successfully — the
amount is kept as text — contradicting the claim that the Loader fails
with `ParseError` whenever an amount cell cannot be parsed. -/
theorem C7_counterexample :
    parse_amount "abc" = none
    ∧ load_data cexTable7 =
        .ok [⟨⟨2025, 1, 1⟩, "x", .text "abc", "Coffee shop"⟩] :=
  ⟨by decide, by decide⟩

/-- C7 (amended): with the required columns present and rectangular,
loading fails with the date parse error exactly when some date cell is
malformed — a malformed amount cell never causes failure, it is kept
as text by type inference — and on success the rows carry, in order,
the parsed dates together with the category, inferred-amount and
description cells. -/
theorem C7_loader (t : RawTable) (hreq : t.hasRequired = true)
    (h1 : (t.col "category").length = (t.col "date").length)
    (h2 : (t.col "amount").length = (t.col "date").length)
    (h3 : (t.col "description").length = (t.col "date").length) :
    (load_data t = .error .parseError ↔ ∃ c ∈ t.col "date", parse_date c = none)
    ∧ ∀ rows, load_data t = .ok rows →
        parse_dates (t.col "date") = some (rows.map (fun r => r.date))
        ∧ rows.map (fun r => r.category) = t.col "category"
        ∧ rows.map (fun r => r.amount) = (t.col "amount").map inferCell
        ∧ rows.map (fun r => r.description) = t.col "description" := by
  unfold load_data
  rw [if_pos hreq]
  cases hpd : parse_dates (t.col "date") with
  | none =>
    constructor
    · constructor
      · intro _
        exact (parse_dates_eq_none _).mp hpd
      · intro _
        rfl
    · intro rows hok
      exact absurd hok (by simp)
  | some ds =>
    have hlen : ds.length = (t.col "date").length := parse_dates_length _ _ hpd
    have hz := zipRows_fields ds (t.col "category") (t.col "amount") (t.col "description")
      (h1.trans hlen.symm) (h2.trans hlen.symm) (h3.trans hlen.symm)
    refine ⟨⟨fun habs => absurd habs (by simp), fun hex => ?_⟩, fun rows hok => ?_⟩
    · exact absurd ((parse_dates_eq_none _).mpr hex) (by simp [hpd])
    · injection hok with hok
      rw [← hok]
      refine ⟨?_, hz.2.1, hz.2.2.1, hz.2.2.2⟩
      rw [hz.1]

/-- Witness for the amended C7 on the four-row example table. -/
theorem C7_witness :
    wTable7.hasRequired = true
    ∧ (wTable7.col "category").length = (wTable7.col "date").length
    ∧ (wTable7.col "amount").length = (wTable7.col "date").length
    ∧ (wTable7.col "description").length = (wTable7.col "date").length
    ∧ ((load_data wTable7 = .error .parseError ↔
          ∃ c ∈ wTable7.col "date", parse_date c = none)
      ∧ ∀ rows, load_data wTable7 = .ok rows →
          parse_dates (wTable7.col "date") = some (rows.map (fun r => r.date))
          ∧ rows.map (fun r => r.category) = wTable7.col "category"
          ∧ rows.map (fun r => r.amount) = (wTable7.col "amount").map inferCell
          ∧ rows.map (fun r => r.description) = wTable7.col "description") :=
  ⟨by decide, by decide, by decide, by decide,
    C7_loader wTable7 (by decide) (by decide) (by decide) (by decide)⟩

/-- C8 counterexample: on a loaded dataset with zero records,
`generate_summary` does not fail — it returns a summary — contradicting
the claim that summarization on zero records fails with
`EmptyDatasetError`. -/
theorem C8_counterexample :
    (loadParsed [] s0).data = some []
    ∧ exceptIsOk (generate_summary (loadParsed [] s0)) = true :=
  ⟨rfl, by decide⟩

/-- C8 (amended): detection and summarization before the Loader fail
with the not-loaded error; detection on a loaded empty dataset fails
(the model fit rejects an empty feature matrix — a library error, not
a repo-defined one), while summarization on a loaded empty dataset
succeeds. -/
theorem C8_empty_and_not_loaded (model : OutlierModel) (s : AnalyzerState) :
    (s.data = none →
      detect_anomalies model s = .error .notLoaded
      ∧ generate_summary s = .error .notLoaded)
    ∧ (s.data = some [] →
      detect_anomalies model s = .error .emptyFit
      ∧ exceptIsOk (generate_summary s) = true) := by
  constructor
  · intro h
    refine ⟨?_, ?_⟩
    · unfold detect_anomalies
      rw [h]
    · unfold generate_summary
      rw [h]
  · intro h
    refine ⟨?_, ?_⟩
    · unfold detect_anomalies
      rw [h]
      rfl
    · unfold generate_summary
      rw [h]
      rfl

/-- Witness for the amended C8 on concrete states. -/
theorem C8_witness :
    s0.data = none
    ∧ (detect_anomalies flagAll s0 = .error .notLoaded
        ∧ generate_summary s0 = .error .notLoaded)
    ∧ (loadParsed [] s0).data = some []
    ∧ (detect_anomalies flagAll (loadParsed [] s0) = .error .emptyFit
        ∧ exceptIsOk (generate_summary (loadParsed [] s0)) = true) :=
  ⟨rfl, (C8_empty_and_not_loaded flagAll s0).1 rfl, rfl,
    (C8_empty_and_not_loaded flagAll (loadParsed [] s0)).2 rfl⟩

lemma filter_map_filter {α β : Type} (p : α → Bool) (f : α → β) (q : β → Bool)
    (l : List α) :
    ((l.filter p).map f).filter q = (l.filter (fun a => p a && q (f a))).map f := by
  induction l with
  | nil => simp
  | cons a t ih =>
    cases hp : p a <;> cases hq : q (f a) <;> simp [List.filter_cons, hp, hq, ih]

/-- C9 counterexample: a query naming the category food, the month
january and the year 2024, against a dataset holding a Food record
dated January 2024.  The record matches the requested year-month, yet
the dispatcher returns no records: the code recognizes only the
literal year 2025 and otherwise substitutes the current year (2026
here), ignoring the year the query asked for. -/
theorem C9_counterexample :
    handle_query 2026 "show food expenses for january 2024" [rQ] default_budgets =
      .expenses "Food" []
    ∧ containsSub (lowerStr "show food expenses for january 2024") "food" = true
    ∧ containsSub (lowerStr "show food expenses for january 2024") "january" = true
    ∧ rQ.category = "Food" ∧ rQ.date.year = 2024 ∧ rQ.date.month = 1 :=
  ⟨by decide, by decide, by decide, by decide, by decide, by decide⟩

/-- C9 (amended): for a query that does not mention "budget" but does
mention a known category and a month name, the dispatcher returns
exactly the records of that category whose year-month is (Y, M), where
M is the first month name the query contains and Y is 2025 when the
query contains the substring "2025" and the current year otherwise —
any other year mentioned in the query is ignored. -/
theorem C9_category_month_query (currentYear : ℕ) (q : String)
    (data : List ExpenseRecord) (budgets : List (String × ℚ)) (cat mon : String)
    (hb : containsSub (lowerStr q) "budget" = false)
    (hc : known_categories.find? (fun c => containsSub (lowerStr q) c) = some cat)
    (hm : month_names.find? (fun m => containsSub (lowerStr q) m) = some mon) :
    handle_query currentYear q data budgets =
      .expenses (capitalizeStr cat)
        ((data.filter (fun r =>
            r.category == capitalizeStr cat
            && (r.date.year ==
                  (if containsSub (lowerStr q) "2025" then 2025 else currentYear)
              && r.date.month == month_names.indexOf mon + 1))).map
          (fun r => (r.date, r.amount, r.description))) := by
  have hany : known_categories.any (fun c => containsSub (lowerStr q) c) = true := by
    rw [List.any_eq_true]
    exact ⟨cat, List.mem_of_find?_eq_some hc, List.find?_some hc⟩
  simp only [handle_query, hb, hany, hc, hm, Bool.false_eq_true, if_false, if_true,
    Option.getD_some, Option.map_some']
  rw [filter_map_filter]

/-- Witness for the amended C9 on a concrete query and dataset. -/
theorem C9_witness :
    containsSub (lowerStr "show food expenses for january") "budget" = false
    ∧ known_categories.find?
        (fun c => containsSub (lowerStr "show food expenses for january") c) = some "food"
    ∧ month_names.find?
        (fun m => containsSub (lowerStr "show food expenses for january") m) =
        some "january"
    ∧ handle_query 2025 "show food expenses for january" [recJan] default_budgets =
        .expenses (capitalizeStr "food")
          (([recJan].filter (fun r =>
              r.category == capitalizeStr "food"
              && (r.date.year ==
                    (if containsSub (lowerStr "show food expenses for january") "2025"
                     then 2025 else 2025)
                && r.date.month == month_names.indexOf "january" + 1))).map
            (fun r => (r.date, r.amount, r.description))) :=
  ⟨by decide, by decide, by decide,
    C9_category_month_query 2025 "show food expenses for january" [recJan]
      default_budgets "food" "january" (by decide) (by decide) (by decide)⟩

/-- C10: on a loaded non-empty dataset, computing the Summary before
the Detector has run raises no error and reports `anomaly_count = 0`
(the anomalies snapshot is still `None`). -/
theorem C10_summary_before_detector (s : AnalyzerState) (rows : List ExpenseRecord)
    (h1 : s.data = some rows) (h2 : rows ≠ []) (h3 : s.anomalies = none) :
    exceptIsOk (generate_summary s) = true
    ∧ (generate_summary s).map (fun p => p.2.anomaly_count) = .ok 0 := by
  have hsum : generate_summary s = .ok (s, summarize rows s.budgets none) := by
    unfold generate_summary
    rw [h1]
    show Except.ok (s, summarize rows s.budgets s.anomalies) =
      Except.ok (s, summarize rows s.budgets none)
    rw [h3]
  rw [hsum]
  exact ⟨rfl, rfl⟩

/-- Witness for C10 on a concrete one-record analyzer. -/
theorem C10_witness :
    (loadParsed [r1] s0).data = some [{ r1 with anomaly := none }]
    ∧ [{ r1 with anomaly := none }] ≠ ([] : List ExpenseRecord)
    ∧ (loadParsed [r1] s0).anomalies = none
    ∧ exceptIsOk (generate_summary (loadParsed [r1] s0)) = true
    ∧ (generate_summary (loadParsed [r1] s0)).map (fun p => p.2.anomaly_count) = .ok 0 :=
  ⟨rfl, by decide, rfl,
    (C10_summary_before_detector (loadParsed [r1] s0) [{ r1 with anomaly := none }]
      rfl (by decide) rfl).1,
    (C10_summary_before_detector (loadParsed [r1] s0) [{ r1 with anomaly := none }]
      rfl (by decide) rfl).2⟩

end ExpenseAI
